import Mathlib

/-!
Shallow embedding of the Expense_Tracker application logic.

Source files embedded:
- src/src/components/Dashboard.tsx        (fetchDashboardData: totals, monthly,
  category summary, 7-day daily trend)
- src/src/components/BudgetTracker.tsx    (percentage / classification,
  handleSetBudget validation + upsert, fetchMonthlySpending)
- src/src/components/ExpenseList.tsx      (fetchExpenses limit(50), realtime
  subscription wiring, handleDelete)
- src/unnamed/part_000 (ExpenseDialog)    (expenseSchema zod validation,
  handleSubmit)
- src/supabase/migrations/...sql          (budgets UNIQUE(user_id, month))

Numeric amounts are modelled as exact rationals (the JS code manipulates
Number values; the properties under scrutiny are about the algebraic
structure of the reductions, stated over exact arithmetic).  Calendar dates
(SQL DATE columns, canonical YYYY-MM-DD strings) are modelled as
year/month/day triples; equality of canonical date strings is equality of
triples, and JS Date-object (epoch-time) comparison of midnight timestamps
is modelled by a strictly monotone integer encoding of valid triples.
-/

namespace ExpenseTracker

/-- Calendar date: models a canonical YYYY-MM-DD date string / SQL DATE value.
The year is an integer so that stepping backwards over year boundaries is
total. -/
structure SDate where
  year : Int
  month : Nat
  day : Nat
deriving DecidableEq, Repr

/-- Gregorian leap-year test (as implemented by the JS Date rollover). -/
def isLeapYear (y : Int) : Bool :=
  (y % 4 == 0 && y % 100 != 0) || (y % 400 == 0)

/-- Number of days of month m of year y (Gregorian calendar, as implemented
by JS Date month rollover). -/
def daysInMonth (y : Int) (m : Nat) : Nat :=
  if m = 2 then (if isLeapYear y then 29 else 28)
  else if m = 4 ∨ m = 6 ∨ m = 9 ∨ m = 11 then 30
  else 31

/-- Validity of a calendar triple. -/
def SDate.validDate (d : SDate) : Prop :=
  1 ≤ d.month ∧ d.month ≤ 12 ∧ 1 ≤ d.day ∧ d.day ≤ daysInMonth d.year d.month

instance (d : SDate) : Decidable d.validDate := by
  unfold SDate.validDate; infer_instance

/-- The calendar day immediately before d: models the JS
`date.setDate(date.getDate() - 1)` rollover semantics. -/
def prevDay (d : SDate) : SDate :=
  if 1 < d.day then ⟨d.year, d.month, d.day - 1⟩
  else if 1 < d.month then ⟨d.year, d.month - 1, daysInMonth d.year (d.month - 1)⟩
  else ⟨d.year - 1, 12, 31⟩

/-- Strict chronological (lexicographic) order on calendar dates. -/
def dateLt (a b : SDate) : Prop :=
  a.year < b.year ∨
    (a.year = b.year ∧ (a.month < b.month ∨ (a.month = b.month ∧ a.day < b.day)))

/-- Non-strict chronological order on calendar dates: this is the calendar
comparison, it coincides with lexicographic comparison of canonical
YYYY-MM-DD strings (used by the supabase gte("date", ...) filter in
BudgetTracker.fetchMonthlySpending). -/
def dateLe (a b : SDate) : Prop := dateLt a b ∨ a = b

instance (a b : SDate) : Decidable (dateLt a b) := by
  unfold dateLt; infer_instance

instance (a b : SDate) : Decidable (dateLe a b) := by
  unfold dateLe; infer_instance

/-- Strictly monotone integer encoding of valid calendar dates: stands in
for the epoch-milliseconds timestamp of midnight of the given day, so that
comparing encodings models the JS Date-object comparison
`new Date(exp.date) >= firstDayOfMonth` in Dashboard.fetchDashboardData. -/
def dateOrd (d : SDate) : Int :=
  (d.year * 13 + (d.month : Int)) * 32 + (d.day : Int)

/-- A joined expense category row (expense_categories (name, color)). -/
structure Category where
  name : String
  color : String
deriving DecidableEq, Repr

/-- An expense row as fetched by the dashboard: amount, canonical date, and
the optionally joined category (null when category_id is null or the
category row is gone). -/
structure Expense where
  amount : Rat
  date : SDate
  cat : Option Category
deriving DecidableEq, Repr

/-- Dashboard.tsx line 42:
`expenses.reduce((sum, exp) => sum + Number(exp.amount), 0)`. -/
def totalExpenses (l : List Expense) : Rat :=
  l.foldl (fun s e => s + e.amount) 0

/-- Dashboard.tsx line 52: `exp.expense_categories?.name || "Other"`.
A missing join and a falsy (empty) name both fall back to "Other". -/
def resolvedName (e : Expense) : String :=
  match e.cat with
  | none => "Other"
  | some c => if c.name = "" then "Other" else c.name

/-- Dashboard.tsx line 53: `exp.expense_categories?.color || "#6B7280"`. -/
def resolvedColor (e : Expense) : String :=
  match e.cat with
  | none => "#6B7280"
  | some c => if c.color = "" then "#6B7280" else c.color

/-- One category-summary bucket: (category name, accumulated amount,
display color). -/
structure Bucket where
  category : String
  amount : Rat
  color : String
deriving DecidableEq, Repr

/-- Dashboard.tsx lines 54-58: update of the insertion-ordered JS Map —
`categoryMap.set(category, { amount: current.amount + Number(exp.amount), color })`
where `current = categoryMap.get(category) || { amount: 0, color }`.
JS Map.set on an existing key keeps its position and here overwrites the
color with the current row's resolved color. -/
def bucketAdd (m : List Bucket) (k : String) (amt : Rat) (color : String) :
    List Bucket :=
  match m with
  | [] => [⟨k, amt, color⟩]
  | b :: rest =>
      if b.category = k then ⟨b.category, b.amount + amt, color⟩ :: rest
      else b :: bucketAdd rest k amt color

/-- Dashboard.tsx lines 50-65: the category summary, one bucket per distinct
resolved category name, in first-seen order (JS Map iteration order). -/
def categorySummary (l : List Expense) : List Bucket :=
  l.foldl (fun m e => bucketAdd m (resolvedName e) e.amount (resolvedColor e)) []

/-- Dashboard.tsx line 28: `new Date(now.getFullYear(), now.getMonth(), 1)`,
and BudgetTracker.tsx lines 26/42/65: the `${y}-${mm}-01` month key. -/
def firstDayOfMonth (now : SDate) : SDate :=
  ⟨now.year, now.month, 1⟩

/-- Dashboard.tsx lines 45-47: monthly spend, filtering by Date-object
(epoch-time) comparison `new Date(exp.date) >= firstDayOfMonth`. -/
def monthlyExpenses (now : SDate) (l : List Expense) : Rat :=
  totalExpenses (l.filter (fun e => decide (dateOrd (firstDayOfMonth now) ≤ dateOrd e.date)))

/-- Dashboard.tsx lines 68-72: the 7 calendar days from now-6 through now,
in chronological order (`date.setDate(date.getDate() - (6 - i))` for
i = 0..6, rendered canonically). -/
def last7Days (now : SDate) : List SDate :=
  (List.range 7).map (fun i => prevDay^[6 - i] now)

/-- Dashboard.tsx lines 74-79: for each of the 7 days, the sum of amounts of
the expenses whose canonical date equals that day
(`expenses.filter((exp) => exp.date === date).reduce(...)`). -/
def dailyTrend (now : SDate) (l : List Expense) : List (SDate × Rat) :=
  (last7Days now).map (fun d => (d, totalExpenses (l.filter (fun e => e.date == d))))

/-- BudgetTracker.tsx line 89:
`(monthlySpending / Number(budget.limit_amount)) * 100`. -/
def percentage (spend limit : Rat) : Rat :=
  spend / limit * 100

/-- BudgetTracker.tsx line 90: `percentage > 100`. -/
def isOverBudget (spend limit : Rat) : Prop :=
  100 < percentage spend limit

instance (spend limit : Rat) : Decidable (isOverBudget spend limit) := by
  unfold isOverBudget; infer_instance

/-- BudgetTracker.tsx line 91: `percentage > 80 && percentage <= 100`. -/
def isNearLimit (spend limit : Rat) : Prop :=
  80 < percentage spend limit ∧ percentage spend limit ≤ 100

instance (spend limit : Rat) : Decidable (isNearLimit spend limit) := by
  unfold isNearLimit; infer_instance

/-- Classification of the tracked budget as rendered. -/
inductive BudgetState where
  | over
  | near
  | normal
deriving DecidableEq, Repr

/-- BudgetTracker.tsx lines 120-136: the over-budget alert is rendered when
isOverBudget, the near-limit alert when isNearLimit && !isOverBudget,
otherwise no alert (normal). -/
def budgetState (spend limit : Rat) : BudgetState :=
  if isOverBudget spend limit then .over
  else if isNearLimit spend limit then .near
  else .normal

/-- BudgetTracker.tsx line 124: the displayed overage
`monthlySpending - Number(budget.limit_amount)`. -/
def overageDisplay (spend limit : Rat) : Rat :=
  spend - limit

/-- BudgetTracker.tsx line 133: the displayed remainder
`Number(budget.limit_amount) - monthlySpending`. -/
def remainingDisplay (spend limit : Rat) : Rat :=
  limit - spend

/-- A row of the budgets table (migration lines 86-94): user_id, month
(a DATE), limit_amount; the table carries UNIQUE(user_id, month). -/
structure BudgetRow where
  user_id : Nat
  month : SDate
  limit_amount : Rat
deriving DecidableEq, Repr

/-- Key predicate for the (user_id, month) unique key. -/
def BudgetRow.hasKey (r : BudgetRow) (u : Nat) (m : SDate) : Bool :=
  r.user_id == u && r.month == m

/-- The (user_id, month) keys stored in a budget store. -/
def budgetKeys (store : List BudgetRow) : List (Nat × SDate) :=
  store.map (fun r => (r.user_id, r.month))

/-- Modelled from the spec: the persistence layer of the supabase
`upsert(..., { onConflict: "user_id,month" })` call issued by
BudgetTracker.handleSetBudget (lines 70-78) is not part of the repository;
per the spec's upsert semantics, a budget for a (user, month) key that
already has a row replaces that row's limit, otherwise a new row is
inserted (the migration's UNIQUE(user_id, month) is the conflict target). -/
def upsertBudget (store : List BudgetRow) (u : Nat) (m : SDate) (lim : Rat) :
    List BudgetRow :=
  if store.any (fun r => r.hasKey u m) then
    store.map (fun r => if r.hasKey u m then ⟨r.user_id, r.month, lim⟩ else r)
  else store ++ [⟨u, m, lim⟩]

/-- Outcome of a set-budget submission as surfaced to the caller. -/
inductive SetBudgetOutcome where
  | invalidAmount
  | notAuthenticated
  | saved
deriving DecidableEq, Repr

/-- BudgetTracker.tsx lines 55-87 (handleSetBudget): the submitted limit
string is run through parseFloat — modelled as an Option Rat, none standing
for NaN; `isNaN(amount) || amount <= 0` rejects synchronously (toast.error,
return) before any persistence call; an absent authenticated user returns
silently; otherwise the upsert is issued with the month key normalized to
the first day of the current month. -/
def handleSetBudget (parsed : Option Rat) (user : Option Nat) (now : SDate)
    (store : List BudgetRow) : List BudgetRow × SetBudgetOutcome :=
  match parsed with
  | none => (store, .invalidAmount)
  | some a =>
      if a ≤ 0 then (store, .invalidAmount)
      else
        match user with
        | none => (store, .notAuthenticated)
        | some u => (upsertBudget store u (firstDayOfMonth now) a, .saved)

/-- Shape of the uuid strings accepted for category_id: models the
`z.string().uuid()` check of expenseSchema (8-4-4-4-12 hex groups). -/
def isUuidHexChar (c : Char) : Bool :=
  c.isDigit || (c ≥ 'a' && c ≤ 'f') || (c ≥ 'A' && c ≤ 'F')

/-- Uuid shape check over the character list of the candidate string. -/
def isUuidShape (s : String) : Bool :=
  s.length == 36 &&
    (List.range 36).all (fun i =>
      let c := s.toList.getD i ' '
      if i = 8 ∨ i = 13 ∨ i = 18 ∨ i = 23 then c == '-' else isUuidHexChar c)

/-- The validated expense payload produced by a successful schema parse. -/
structure ValidatedExpense where
  amount : Rat
  description : String
  category_id : String
  date : String
deriving DecidableEq, Repr

/-- src/unnamed/part_000 lines 17-22 (expenseSchema): zod checks the fields
in declaration order and handleSubmit surfaces `error.errors[0].message`,
i.e. the message of the first failing field; amount is the parseFloat of
the form field (none standing for NaN, which z.number() rejects), must be
strictly positive; description must be a nonempty string of at most 200
characters; category_id must be uuid-shaped; date must be nonempty. -/
def parseExpense (amount : Option Rat) (description : String)
    (category_id : String) (date : String) : Except String ValidatedExpense :=
  match amount with
  | none => .error "Expected number, received nan"
  | some a =>
      if ¬ (0 < a) then .error "Amount must be positive"
      else if description.length < 1 then .error "Description is required"
      else if 200 < description.length then
        .error "String must contain at most 200 character(s)"
      else if ¬ isUuidShape category_id then .error "Please select a category"
      else if date.length < 1 then .error "Date is required"
      else .ok ⟨a, description, category_id, date⟩

/-- Result of an expense-form submission. -/
inductive SubmitResult where
  | rejected (message : String)
  | persisted (payload : ValidatedExpense)
deriving DecidableEq, Repr

/-- src/unnamed/part_000 lines 60-108 (handleSubmit): the schema parse runs
first; a ZodError is surfaced as a toast naming the first failing field and
no insert/update is issued; on success the validated payload is persisted. -/
def submitExpense (amount : Option Rat) (description : String)
    (category_id : String) (date : String) : SubmitResult :=
  match parseExpense amount description category_id date with
  | .error m => .rejected m
  | .ok v => .persisted v

/-- The mutating operations the application issues. -/
inductive Mutation where
  | createExpense
  | updateExpense
  | deleteExpense
  | upsertBudget
deriving DecidableEq, Repr

/-- The pieces of displayed state derived from fetched data. -/
inductive Display where
  | expenseListView
  | dashboardStats
  | budgetRowView
  | monthlySpendingView
deriving DecidableEq, Repr

/-- Whether m is an expense-table mutation. -/
def Mutation.isExpenseMutation : Mutation → Bool
  | .createExpense => true
  | .updateExpense => true
  | .deleteExpense => true
  | .upsertBudget => false

/-- Data flow: which displayed data a successful mutation changes.
Expense mutations change the expense list (ExpenseList.tsx), every
dashboard aggregate (Dashboard.tsx computes them from the expenses table),
and the monthly spending shown by the budget card
(BudgetTracker.fetchMonthlySpending reads the expenses table); a budget
upsert changes only the displayed budget row. -/
def affects : Mutation → Display → Bool
  | m, .expenseListView => m.isExpenseMutation
  | m, .dashboardStats => m.isExpenseMutation
  | m, .monthlySpendingView => m.isExpenseMutation
  | m, .budgetRowView => m == .upsertBudget

/-- Source wiring: which display-backing fetches the code issues after the
mutation completes successfully (counting the realtime-subscription-
triggered re-fetch as issued).
ExpenseList.tsx lines 26-45: fetchExpenses runs on mount and on every
realtime change of the expenses table, so expense mutations re-trigger it;
handleDelete (lines 60-68) issues no fetch itself.
Dashboard.tsx lines 22-24: fetchDashboardData runs only on mount — no
subscription, no post-mutation call.
BudgetTracker.tsx lines 19-22 and 85: fetchBudget runs on mount and after
a successful budget upsert; fetchMonthlySpending runs only on mount. -/
def refetchAfterSuccess : Mutation → Display → Bool
  | m, .expenseListView => m.isExpenseMutation
  | _, .dashboardStats => false
  | _, .monthlySpendingView => false
  | m, .budgetRowView => m == .upsertBudget

/-- ExpenseList.tsx lines 47-58 and Dashboard.tsx lines 31-37: both queries
order by date descending; modelled with mergeSort on the timestamp
encoding. -/
def sortByDateDesc (l : List Expense) : List Expense :=
  l.mergeSort (fun a b => decide (dateOrd b.date ≤ dateOrd a.date))

/-- ExpenseList.tsx lines 47-58: fetchExpenses takes the 50 most recent rows
(`.order("date", { ascending: false }).limit(50)`). -/
def fetchExpensesQuery (db : List Expense) : List Expense :=
  (sortByDateDesc db).take 50

/-- Dashboard.tsx lines 31-37: the dashboard fetch has no limit. -/
def fetchDashboardRows (db : List Expense) : List Expense :=
  sortByDateDesc db

/-! Helper lemmas shared by several claims. -/

theorem foldl_add_amount (l : List Expense) (a : Rat) :
    l.foldl (fun s e => s + e.amount) a = a + (l.map Expense.amount).sum := by
  induction l generalizing a with
  | nil => simp
  | cons e rest ih => simp [ih, add_assoc]

theorem totalExpenses_eq_sum (l : List Expense) :
    totalExpenses l = (l.map Expense.amount).sum := by
  simpa [totalExpenses] using foldl_add_amount l 0

theorem bucketAdd_amount_sum (m : List Bucket) (k : String) (a : Rat)
    (c : String) :
    ((bucketAdd m k a c).map Bucket.amount).sum = (m.map Bucket.amount).sum + a := by
  induction m with
  | nil => simp [bucketAdd]
  | cons b rest ih =>
      by_cases hb : b.category = k
      · simp [bucketAdd, hb]; ring
      · simp [bucketAdd, hb, ih]; ring

theorem bucketAdd_keys (m : List Bucket) (k : String) (a : Rat) (c : String) :
    (bucketAdd m k a c).map Bucket.category =
      if k ∈ m.map Bucket.category then m.map Bucket.category
      else m.map Bucket.category ++ [k] := by
  induction m with
  | nil => simp [bucketAdd]
  | cons b rest ih =>
      by_cases hb : b.category = k
      · simp [bucketAdd, hb]
      · simp only [bucketAdd, if_neg hb, List.map_cons, ih, List.mem_cons]
        by_cases hk : k ∈ rest.map Bucket.category
        · simp [hk, Ne.symm hb]
        · simp [hk, Ne.symm hb]

theorem bucketAdd_mem_keys (m : List Bucket) (k : String) (a : Rat)
    (c : String) : k ∈ (bucketAdd m k a c).map Bucket.category := by
  rw [bucketAdd_keys]
  by_cases hk : k ∈ m.map Bucket.category <;> simp [hk]

theorem bucketAdd_keys_mono (m : List Bucket) (k q : String) (a : Rat)
    (c : String) (hq : q ∈ m.map Bucket.category) :
    q ∈ (bucketAdd m k a c).map Bucket.category := by
  rw [bucketAdd_keys]
  by_cases hk : k ∈ m.map Bucket.category <;> simp [hk, hq]

theorem bucketAdd_keys_nodup (m : List Bucket) (k : String) (a : Rat)
    (c : String) (h : (m.map Bucket.category).Nodup) :
    ((bucketAdd m k a c).map Bucket.category).Nodup := by
  rw [bucketAdd_keys]
  by_cases hk : k ∈ m.map Bucket.category
  · simpa [hk] using h
  · simp only [if_neg hk]
    rw [List.nodup_append]
    refine ⟨h, List.nodup_singleton k, fun x hx hxk => hk ?_⟩
    simp only [List.mem_singleton] at hxk
    subst hxk
    exact hx

theorem categoryFold_amount_sum (l : List Expense) (m : List Bucket) :
    (((l.foldl (fun m e => bucketAdd m (resolvedName e) e.amount (resolvedColor e)) m)).map
        Bucket.amount).sum =
      (m.map Bucket.amount).sum + (l.map Expense.amount).sum := by
  induction l generalizing m with
  | nil => simp
  | cons e rest ih =>
      simp only [List.foldl_cons, ih, bucketAdd_amount_sum, List.map_cons,
        List.sum_cons]
      ring

theorem categoryFold_keys_nodup (l : List Expense) (m : List Bucket)
    (h : (m.map Bucket.category).Nodup) :
    (((l.foldl (fun m e => bucketAdd m (resolvedName e) e.amount (resolvedColor e)) m)).map
        Bucket.category).Nodup := by
  induction l generalizing m with
  | nil => exact h
  | cons e rest ih =>
      exact ih _ (bucketAdd_keys_nodup _ _ _ _ h)

theorem categoryFold_keys_mono (l : List Expense) (m : List Bucket)
    (q : String) (hq : q ∈ m.map Bucket.category) :
    q ∈ ((l.foldl (fun m e => bucketAdd m (resolvedName e) e.amount (resolvedColor e)) m)).map
        Bucket.category := by
  induction l generalizing m with
  | nil => exact hq
  | cons e rest ih =>
      exact ih _ (bucketAdd_keys_mono _ _ _ _ _ hq)

theorem categoryFold_mem_keys (l : List Expense) (m : List Bucket)
    (e : Expense) (he : e ∈ l) :
    resolvedName e ∈
      ((l.foldl (fun m e => bucketAdd m (resolvedName e) e.amount (resolvedColor e)) m)).map
        Bucket.category := by
  induction l generalizing m with
  | nil => cases he
  | cons x rest ih =>
      rcases List.mem_cons.mp he with h | h
      · subst h
        exact categoryFold_keys_mono rest _ _ (bucketAdd_mem_keys _ _ _ _)
      · exact ih _ h

/-- C1: for every expense sequence, the category-summary buckets partition
the total spend — the sum of the bucket amounts equals the total spend, the
bucket keys (resolved category names, defaulting to "Other") are pairwise
distinct (no double-counting), and every expense's resolved category name
owns a bucket (no omission). -/
theorem categorySummary_partitions_total (l : List Expense) :
    ((categorySummary l).map Bucket.amount).sum = totalExpenses l ∧
    ((categorySummary l).map Bucket.category).Nodup ∧
    ∀ e ∈ l, resolvedName e ∈ (categorySummary l).map Bucket.category := by
  refine ⟨?_, ?_, ?_⟩
  · rw [categorySummary, categoryFold_amount_sum, totalExpenses_eq_sum]
    simp
  · exact categoryFold_keys_nodup l [] (by simp)
  · intro e he
    exact categoryFold_mem_keys l [] e he

/-- C5: total spend equals the sum of the individual amounts and is invariant
under any permutation of the (non-empty) input sequence. -/
theorem totalSpend_sum_perm_invariant (l lp : List Expense) (hne : l ≠ [])
    (hp : l.Perm lp) :
    totalExpenses l = (l.map Expense.amount).sum ∧
    totalExpenses l = totalExpenses lp := by
  refine ⟨totalExpenses_eq_sum l, ?_⟩
  rw [totalExpenses_eq_sum, totalExpenses_eq_sum]
  exact (hp.map Expense.amount).sum_eq

/-- Witness for C5 at a concrete two-element sequence and a transposition. -/
theorem totalSpend_sum_perm_invariant_witness :
    ([⟨10, ⟨2024, 3, 1⟩, none⟩, ⟨5, ⟨2024, 3, 2⟩, none⟩] : List Expense) ≠ [] ∧
    totalExpenses [⟨10, ⟨2024, 3, 1⟩, none⟩, ⟨5, ⟨2024, 3, 2⟩, none⟩] =
      (([⟨10, ⟨2024, 3, 1⟩, none⟩, ⟨5, ⟨2024, 3, 2⟩, none⟩] : List Expense).map
          Expense.amount).sum ∧
    totalExpenses [⟨10, ⟨2024, 3, 1⟩, none⟩, ⟨5, ⟨2024, 3, 2⟩, none⟩] =
      totalExpenses [⟨5, ⟨2024, 3, 2⟩, none⟩, ⟨10, ⟨2024, 3, 1⟩, none⟩] := by
  refine ⟨by simp, ?_⟩
  exact totalSpend_sum_perm_invariant _ _ (by simp) (by decide)

/-- The conjunction claimed of the budget evaluator: exact percentage,
strict classification boundaries, and the displayed overage/remainder. -/
def budgetEvalSpec (spend limit : Rat) : Prop :=
  percentage spend limit = spend / limit * 100 ∧
  (budgetState spend limit = .over ↔ 100 < percentage spend limit) ∧
  overageDisplay spend limit = spend - limit ∧
  (budgetState spend limit = .near ↔
    80 < percentage spend limit ∧ percentage spend limit ≤ 100) ∧
  remainingDisplay spend limit = limit - spend ∧
  (budgetState spend limit = .normal ↔ percentage spend limit ≤ 80) ∧
  (spend / limit = 4 / 5 → budgetState spend limit = .normal)

/-- C2: for every non-negative spend and strictly positive limit the budget
evaluator computes percentage = spend / limit * 100 exactly and classifies
with strict boundaries — over iff percentage > 100 (overage displayed as
spend − limit), near iff 80 < percentage ≤ 100 (remainder displayed as
limit − spend), normal otherwise; in particular spend / limit = 4/5 gives
normal. -/
theorem budgetEvaluator_strict_boundaries (spend limit : Rat)
    (hs : 0 ≤ spend) (hl : 0 < limit) : budgetEvalSpec spend limit := by
  have hover : isOverBudget spend limit ↔ 100 < percentage spend limit :=
    Iff.rfl
  have hnear : isNearLimit spend limit ↔
      80 < percentage spend limit ∧ percentage spend limit ≤ 100 := Iff.rfl
  refine ⟨rfl, ?_, rfl, ?_, rfl, ?_, ?_⟩
  · unfold budgetState
    split_ifs with h1 h2 <;> simp_all [isOverBudget, isNearLimit]
  · unfold budgetState
    split_ifs with h1 h2 <;>
      simp_all [isOverBudget, isNearLimit] <;> linarith
  · unfold budgetState
    split_ifs with h1 h2 <;> simp_all [isOverBudget, isNearLimit] <;> linarith
  · intro hq
    have hp : percentage spend limit = 80 := by
      rw [percentage, hq]; norm_num
    unfold budgetState
    rw [if_neg, if_neg]
    · norm_num [isNearLimit, hp]
    · norm_num [isOverBudget, hp]

/-- Witness for C2 at the spec example spend = 85, limit = 100 (near). -/
theorem budgetEvaluator_strict_boundaries_witness :
    (0 : Rat) ≤ 85 ∧ (0 : Rat) < 100 ∧ budgetEvalSpec 85 100 :=
  ⟨by norm_num, by norm_num,
    budgetEvaluator_strict_boundaries 85 100 (by norm_num) (by norm_num)⟩

theorem daysInMonth_le (y : Int) (m : Nat) : daysInMonth y m ≤ 31 := by
  unfold daysInMonth
  split
  · split <;> omega
  · split <;> omega

theorem daysInMonth_pos (y : Int) (m : Nat) : 1 ≤ daysInMonth y m := by
  unfold daysInMonth
  split
  · split <;> omega
  · split <;> omega

/-- On valid calendar dates, the timestamp (epoch-time) comparison used by
the Dashboard coincides with the chronological calendar comparison. -/
theorem dateOrd_le_iff (a b : SDate) (ha : a.validDate) (hb : b.validDate) :
    dateOrd a ≤ dateOrd b ↔ dateLe a b := by
  obtain ⟨ay, am, ad⟩ := a
  obtain ⟨by_, bm, bd⟩ := b
  obtain ⟨ha1, ha2, ha3, ha4⟩ := ha
  obtain ⟨hb1, hb2, hb3, hb4⟩ := hb
  have ha5 : ad ≤ 31 := le_trans ha4 (daysInMonth_le ay am)
  have hb5 : bd ≤ 31 := le_trans hb4 (daysInMonth_le by_ bm)
  simp only [dateOrd, dateLe, dateLt, SDate.mk.injEq] at *
  omega

theorem firstDayOfMonth_valid (now : SDate) (h : now.validDate) :
    (firstDayOfMonth now).validDate := by
  obtain ⟨h1, h2, h3, h4⟩ := h
  exact ⟨h1, h2, le_refl 1, daysInMonth_pos now.year now.month⟩

/-- C4: for valid dates, the current-month spend — computed by the code via
elapsed-time (timestamp) comparison of the expense date against the first
day of the month containing now — equals the sum of the amounts of exactly
the expenses whose calendar date is on or after that first day under
calendar-date comparison. -/
theorem monthlySpend_calendar_comparison (now : SDate) (l : List Expense)
    (hnow : now.validDate) (hl : ∀ e ∈ l, e.date.validDate) :
    monthlyExpenses now l =
      ((l.filter (fun e => decide (dateLe (firstDayOfMonth now) e.date))).map
          Expense.amount).sum := by
  rw [monthlyExpenses, totalExpenses_eq_sum]
  congr 1
  congr 1
  apply List.filter_congr
  intro e he
  rw [decide_eq_decide]
  exact dateOrd_le_iff (firstDayOfMonth now) e.date
    (firstDayOfMonth_valid now hnow) (hl e he)

/-- Witness for C4 at the spec example: three March expenses, now =
2024-03-02, monthly spend 35. -/
theorem monthlySpend_calendar_comparison_witness :
    SDate.validDate ⟨2024, 3, 2⟩ ∧
    (∀ e ∈ ([⟨10, ⟨2024, 3, 1⟩, none⟩, ⟨5, ⟨2024, 3, 1⟩, none⟩,
        ⟨20, ⟨2024, 3, 2⟩, none⟩] : List Expense), e.date.validDate) ∧
    monthlyExpenses ⟨2024, 3, 2⟩
        [⟨10, ⟨2024, 3, 1⟩, none⟩, ⟨5, ⟨2024, 3, 1⟩, none⟩,
          ⟨20, ⟨2024, 3, 2⟩, none⟩] =
      ((([⟨10, ⟨2024, 3, 1⟩, none⟩, ⟨5, ⟨2024, 3, 1⟩, none⟩,
            ⟨20, ⟨2024, 3, 2⟩, none⟩] : List Expense).filter
          (fun e => decide (dateLe (firstDayOfMonth ⟨2024, 3, 2⟩) e.date))).map
        Expense.amount).sum :=
  ⟨by decide, by decide,
    monthlySpend_calendar_comparison ⟨2024, 3, 2⟩ _ (by decide) (by decide)⟩

theorem daysInMonth_twelve (y : Int) : daysInMonth y 12 = 31 := by
  simp [daysInMonth]

theorem validDate_prevDay {d : SDate} (h : d.validDate) :
    (prevDay d).validDate := by
  obtain ⟨h1, h2, h3, h4⟩ := h
  unfold prevDay
  split_ifs with hd hm <;> simp only [SDate.validDate]
  · omega
  · have hpos := daysInMonth_pos d.year (d.month - 1)
    omega
  · have h31 := daysInMonth_twelve (d.year - 1)
    omega

theorem prevDay_lt {d : SDate} (h : d.validDate) : dateLt (prevDay d) d := by
  obtain ⟨h1, h2, h3, h4⟩ := h
  unfold prevDay
  split_ifs with hd hm <;> simp only [dateLt, true_and] <;> omega

theorem dateLt_trans {a b c : SDate} (hab : dateLt a b) (hbc : dateLt b c) :
    dateLt a c := by
  unfold dateLt at *
  omega

theorem validDate_iterate_prevDay (k : Nat) {d : SDate} (h : d.validDate) :
    (prevDay^[k] d).validDate := by
  induction k with
  | zero => simpa using h
  | succ k ih =>
      rw [Function.iterate_succ_apply']
      exact validDate_prevDay ih

theorem iterate_prevDay_lt {d : SDate} (h : d.validDate) (k : Nat)
    (hk : 0 < k) : dateLt (prevDay^[k] d) d := by
  induction k with
  | zero => omega
  | succ k ih =>
      rw [Function.iterate_succ_apply']
      rcases Nat.eq_zero_or_pos k with hk0 | hk0
      · subst hk0
        simpa using prevDay_lt h
      · exact dateLt_trans (prevDay_lt (validDate_iterate_prevDay k h)) (ih hk0)

theorem iterate_prevDay_lt_of_lt {d : SDate} (h : d.validDate) {a b : Nat}
    (hba : b < a) : dateLt (prevDay^[a] d) (prevDay^[b] d) := by
  have ha : a = (a - b) + b := by omega
  rw [ha, Function.iterate_add_apply]
  exact iterate_prevDay_lt (validDate_iterate_prevDay b h) (a - b) (by omega)

/-- Default entry used to index into the trend list. -/
def trendDefault : SDate × Rat := (⟨0, 1, 1⟩, 0)

theorem dailyTrend_getD (now : SDate) (l : List Expense) (j : Nat)
    (hj : j < 7) :
    (dailyTrend now l).getD j trendDefault =
      (prevDay^[6 - j] now,
        totalExpenses (l.filter (fun e => e.date == prevDay^[6 - j] now))) := by
  interval_cases j <;> rfl

/-- The conjunction claimed of the 7-day trend: exactly 7 entries, the
entry at index j is the calendar day 6 − j days before now with the sum of
the amounts of the expenses dated that day, the last entry is now itself,
and the entries are in strictly chronological order. -/
def dailyTrendSpec (now : SDate) (l : List Expense) : Prop :=
  (dailyTrend now l).length = 7 ∧
  (∀ j, j < 7 →
    ((dailyTrend now l).getD j trendDefault).1 = prevDay^[6 - j] now ∧
    ((dailyTrend now l).getD j trendDefault).2 =
      ((l.filter (fun e => e.date == prevDay^[6 - j] now)).map
          Expense.amount).sum) ∧
  ((dailyTrend now l).getD 6 trendDefault).1 = now ∧
  (∀ i j, i < j → j < 7 →
    dateLt ((dailyTrend now l).getD i trendDefault).1
      ((dailyTrend now l).getD j trendDefault).1)

/-- C3: for every expense sequence (including the empty one) and every valid
reference day now, the daily trend has exactly 7 entries, one per calendar
day, covering the 6 days before now through now inclusive in chronological
order; each entry's amount is the sum of the amounts of expenses dated that
day (a day with no expenses summing to 0). -/
theorem dailyTrend_seven_day_histogram (now : SDate) (l : List Expense)
    (hnow : now.validDate) : dailyTrendSpec now l := by
  refine ⟨?_, ?_, ?_, ?_⟩
  · simp [dailyTrend, last7Days]
  · intro j hj
    rw [dailyTrend_getD now l j hj]
    exact ⟨rfl, totalExpenses_eq_sum _⟩
  · rw [dailyTrend_getD now l 6 (by norm_num)]
    simp
  · intro i j hij hj7
    rw [dailyTrend_getD now l i (by omega), dailyTrend_getD now l j hj7]
    exact iterate_prevDay_lt_of_lt hnow (by omega)

/-- Witness for C3 at now = 2024-03-02 over the spec's example expenses. -/
theorem dailyTrend_seven_day_histogram_witness :
    SDate.validDate ⟨2024, 3, 2⟩ ∧
    dailyTrendSpec ⟨2024, 3, 2⟩
      [⟨10, ⟨2024, 3, 1⟩, none⟩, ⟨5, ⟨2024, 3, 1⟩, none⟩,
        ⟨20, ⟨2024, 3, 2⟩, none⟩] :=
  ⟨by decide, dailyTrend_seven_day_histogram ⟨2024, 3, 2⟩ _ (by decide)⟩

theorem hasKey_iff (r : BudgetRow) (u : Nat) (m : SDate) :
    r.hasKey u m = true ↔ r.user_id = u ∧ r.month = m := by
  simp [BudgetRow.hasKey]

theorem map_replace_of_no_key (s : List BudgetRow) (u : Nat) (m : SDate)
    (lim : Rat) (h : ∀ r ∈ s, r.hasKey u m = false) :
    s.map (fun r => if r.hasKey u m then (⟨r.user_id, r.month, lim⟩ : BudgetRow) else r) = s := by
  induction s with
  | nil => rfl
  | cons r rest ih =>
      have hr := h r (List.mem_cons_self r rest)
      simp only [List.map_cons, hr, Bool.false_eq_true, if_false,
        ih (fun q hq => h q (List.mem_cons_of_mem r hq))]

theorem filter_key_eq_nil (s : List BudgetRow) (u : Nat) (m : SDate)
    (h : ∀ r ∈ s, r.hasKey u m = false) :
    s.filter (fun r => r.hasKey u m) = [] := by
  rw [List.filter_eq_nil_iff]
  intro r hr
  simp [h r hr]

theorem filter_key_map_replace (s : List BudgetRow) (u : Nat) (m : SDate)
    (lim : Rat) (h : (budgetKeys s).Nodup)
    (hany : s.any (fun r => r.hasKey u m) = true) :
    ((s.map (fun r => if r.hasKey u m then (⟨r.user_id, r.month, lim⟩ : BudgetRow) else r)).filter
        (fun r => r.hasKey u m)) = [⟨u, m, lim⟩] := by
  induction s with
  | nil => simp at hany
  | cons r rest ih =>
      have hkeys : budgetKeys (r :: rest) =
          (r.user_id, r.month) :: budgetKeys rest := by simp [budgetKeys]
      rw [hkeys, List.nodup_cons] at h
      by_cases hr : r.hasKey u m = true
      · obtain ⟨hu, hm⟩ := (hasKey_iff r u m).mp hr
        have hnk : ∀ q ∈ rest, q.hasKey u m = false := by
          intro q hq
          by_contra hq1
          rw [Bool.not_eq_false, hasKey_iff] at hq1
          apply h.1
          rw [hu, hm, ← hq1.1, ← hq1.2]
          exact List.mem_map_of_mem (fun x => (x.user_id, x.month)) hq
        have hhead : (⟨r.user_id, r.month, lim⟩ : BudgetRow).hasKey u m = true :=
          (hasKey_iff _ u m).mpr ⟨hu, hm⟩
        simp only [List.map_cons, if_pos hr, List.filter_cons, hhead, if_true]
        rw [map_replace_of_no_key rest u m lim hnk,
          filter_key_eq_nil rest u m hnk, hu, hm]
      · have hany2 : rest.any (fun r => r.hasKey u m) = true := by
          simp only [List.any_cons, hr, Bool.false_or] at hany
          exact hany
        rw [List.map_cons, if_neg hr, List.filter_cons_of_neg (by simpa using hr)]
        exact ih h.2 hany2

theorem budgetKeys_map_replace (s : List BudgetRow) (u : Nat) (m : SDate)
    (lim : Rat) :
    budgetKeys (s.map (fun r => if r.hasKey u m then (⟨r.user_id, r.month, lim⟩ : BudgetRow) else r)) =
      budgetKeys s := by
  induction s with
  | nil => rfl
  | cons r rest ih =>
      by_cases hr : r.hasKey u m = true <;> simp [budgetKeys, hr] <;>
        simpa [budgetKeys] using ih

theorem upsert_filter_key (s : List BudgetRow) (u : Nat) (m : SDate)
    (lim : Rat) (h : (budgetKeys s).Nodup) :
    (upsertBudget s u m lim).filter (fun r => r.hasKey u m) = [⟨u, m, lim⟩] := by
  unfold upsertBudget
  by_cases hany : s.any (fun r => r.hasKey u m) = true
  · rw [if_pos hany]
    exact filter_key_map_replace s u m lim h hany
  · rw [if_neg hany, List.filter_append]
    have hall : ∀ r ∈ s, r.hasKey u m = false := by
      intro r hr
      by_contra hc
      rw [Bool.not_eq_false] at hc
      exact hany (List.any_eq_true.mpr ⟨r, hr, hc⟩)
    rw [filter_key_eq_nil s u m hall]
    simp [BudgetRow.hasKey]

theorem upsert_keys_nodup (s : List BudgetRow) (u : Nat) (m : SDate)
    (lim : Rat) (h : (budgetKeys s).Nodup) :
    (budgetKeys (upsertBudget s u m lim)).Nodup := by
  unfold upsertBudget
  by_cases hany : s.any (fun r => r.hasKey u m) = true
  · rw [if_pos hany, budgetKeys_map_replace]
    exact h
  · rw [if_neg hany]
    have hkeys : budgetKeys (s ++ [⟨u, m, lim⟩]) =
        budgetKeys s ++ [(u, m)] := by simp [budgetKeys]
    rw [hkeys, List.nodup_append]
    refine ⟨h, List.nodup_singleton _, fun x hx hx1 => ?_⟩
    simp only [List.mem_singleton] at hx1
    subst hx1
    obtain ⟨r, hr, hru⟩ := List.mem_map.mp hx
    apply hany
    refine List.any_eq_true.mpr ⟨r, hr, ?_⟩
    rw [hasKey_iff]
    exact ⟨congrArg Prod.fst hru, congrArg Prod.snd hru⟩

/-- C6: upserting a budget twice for the same (user, month containing now)
leaves exactly one row for that key (given the store satisfies the
UNIQUE(user_id, month) constraint), its limit is the second value, and the
month key is normalized to the first calendar day of the month. -/
theorem budgetUpsert_twice_single_row (store : List BudgetRow) (u : Nat)
    (now : SDate) (a1 a2 : Rat) (h1 : 0 < a1) (h2 : 0 < a2)
    (hnd : (budgetKeys store).Nodup) :
    ((handleSetBudget (some a2) (some u) now
          (handleSetBudget (some a1) (some u) now store).1).1.filter
        (fun r => r.hasKey u (firstDayOfMonth now))) =
      [⟨u, firstDayOfMonth now, a2⟩] ∧
    (firstDayOfMonth now).day = 1 := by
  have e1 : (handleSetBudget (some a1) (some u) now store).1 =
      upsertBudget store u (firstDayOfMonth now) a1 := by
    simp [handleSetBudget, not_le.mpr h1]
  have e2 : (handleSetBudget (some a2) (some u) now
        (upsertBudget store u (firstDayOfMonth now) a1)).1 =
      upsertBudget (upsertBudget store u (firstDayOfMonth now) a1) u
        (firstDayOfMonth now) a2 := by
    simp [handleSetBudget, not_le.mpr h2]
  rw [e1, e2]
  exact ⟨upsert_filter_key _ u _ a2 (upsert_keys_nodup store u _ a1 hnd), rfl⟩

/-- Witness for C6: an empty store, then limits 500 and 800 for March 2024. -/
theorem budgetUpsert_twice_single_row_witness :
    (0 : Rat) < 500 ∧ (0 : Rat) < 800 ∧ (budgetKeys []).Nodup ∧
    (((handleSetBudget (some 800) (some 7) ⟨2024, 3, 15⟩
          (handleSetBudget (some 500) (some 7) ⟨2024, 3, 15⟩ []).1).1.filter
        (fun r => r.hasKey 7 (firstDayOfMonth ⟨2024, 3, 15⟩))) =
        [⟨7, firstDayOfMonth ⟨2024, 3, 15⟩, 800⟩] ∧
      (firstDayOfMonth ⟨2024, 3, 15⟩).day = 1) :=
  ⟨by norm_num, by norm_num, List.nodup_nil,
    budgetUpsert_twice_single_row [] 7 ⟨2024, 3, 15⟩ 500 800 (by norm_num)
      (by norm_num) List.nodup_nil⟩

/-- C7: a submitted budget limit that does not parse as a number (NaN) or is
not strictly positive is rejected before any persistence attempt — the store
is unchanged and the caller is informed synchronously — and otherwise the
upsert proceeds with the normalized month key. -/
theorem setBudget_validation_gate (parsed : Option Rat) (user : Option Nat)
    (now : SDate) (store : List BudgetRow) :
    ((parsed = none ∨ ∃ a, parsed = some a ∧ a ≤ 0) →
      handleSetBudget parsed user now store = (store, .invalidAmount)) ∧
    (∀ a u, parsed = some a → 0 < a → user = some u →
      handleSetBudget parsed user now store =
        (upsertBudget store u (firstDayOfMonth now) a, .saved)) := by
  constructor
  · rintro (h | ⟨a, ha, hle⟩)
    · subst h; rfl
    · subst ha
      simp [handleSetBudget, hle]
  · rintro a u ha hpos hu
    subst ha
    subst hu
    simp [handleSetBudget, not_le.mpr hpos]

/-- Witness for C7: a NaN submission is rejected with the store unchanged,
and a positive submission issues the upsert. -/
theorem setBudget_validation_gate_witness :
    handleSetBudget none (some 1) ⟨2024, 3, 15⟩ [] = ([], .invalidAmount) ∧
    handleSetBudget (some 50) (some 1) ⟨2024, 3, 15⟩ [] =
      (upsertBudget [] 1 (firstDayOfMonth ⟨2024, 3, 15⟩) 50, .saved) :=
  ⟨(setBudget_validation_gate none (some 1) ⟨2024, 3, 15⟩ []).1 (Or.inl rfl),
    (setBudget_validation_gate (some 50) (some 1) ⟨2024, 3, 15⟩ []).2 50 1 rfl
      (by norm_num) rfl⟩

/-- Counterexample to C8: a submission whose amount, category and date are
valid is rejected with "Description is required" when the description is
empty, while the identical submission with a nonempty description is
persisted — so an empty description does cause the validation to reject. -/
theorem emptyDescription_rejected_cex :
    submitExpense (some 5) "" "123e4567-e89b-42d3-a456-426614174000"
        "2024-03-01" = .rejected "Description is required" ∧
    submitExpense (some 5) "lunch" "123e4567-e89b-42d3-a456-426614174000"
        "2024-03-01" =
      .persisted ⟨5, "lunch", "123e4567-e89b-42d3-a456-426614174000",
        "2024-03-01"⟩ := by
  constructor <;> rfl

/-- C8 amended: the description is required, not optional — when the other
fields (amount, category, date) are valid, a submission is persisted exactly
when the description has between 1 and 200 characters, and an empty
description is rejected before any persistence attempt with the message
"Description is required". -/
theorem expenseDescription_required (a : Rat) (desc cid date : String)
    (ha : 0 < a) (hc : isUuidShape cid = true) (hd : 1 ≤ date.length) :
    (desc = "" →
      submitExpense (some a) desc cid date =
        .rejected "Description is required") ∧
    (submitExpense (some a) desc cid date = .persisted ⟨a, desc, cid, date⟩ ↔
      1 ≤ desc.length ∧ desc.length ≤ 200) := by
  unfold submitExpense parseExpense
  constructor
  · intro h
    subst h
    simp [ha]
  · split_ifs with hma hd1 hd2 hcu hdt <;> simp_all <;> omega

/-- Witness for C8's amended claim at a concrete valid submission. -/
theorem expenseDescription_required_witness :
    (0 : Rat) < 5 ∧
    isUuidShape "123e4567-e89b-42d3-a456-426614174000" = true ∧
    1 ≤ ("2024-03-01" : String).length ∧
    (("lunch" : String) = "" →
      submitExpense (some 5) "lunch" "123e4567-e89b-42d3-a456-426614174000"
          "2024-03-01" = .rejected "Description is required") ∧
    (submitExpense (some 5) "lunch" "123e4567-e89b-42d3-a456-426614174000"
          "2024-03-01" =
        .persisted ⟨5, "lunch", "123e4567-e89b-42d3-a456-426614174000",
          "2024-03-01"⟩ ↔
      1 ≤ ("lunch" : String).length ∧ ("lunch" : String).length ≤ 200) :=
  ⟨by norm_num, by decide, by decide,
    (expenseDescription_required 5 "lunch"
        "123e4567-e89b-42d3-a456-426614174000" "2024-03-01" (by norm_num)
        (by decide) (by decide)).1,
    (expenseDescription_required 5 "lunch"
        "123e4567-e89b-42d3-a456-426614174000" "2024-03-01" (by norm_num)
        (by decide) (by decide)).2⟩

/-- Counterexample to C9: a successful expense creation changes the
dashboard aggregates (they are computed over the expenses table), yet the
code issues no re-fetch of the dashboard data after any mutation — the
dashboard fetch runs only on mount. -/
theorem mutationRefetch_dashboard_cex :
    affects .createExpense .dashboardStats = true ∧
    refetchAfterSuccess .createExpense .dashboardStats = false :=
  ⟨rfl, rfl⟩

/-- C9 amended: of the displayed data affected by a successful mutation,
only the expense-list view (re-fetched via the realtime subscription) and
the budget-row view (fetchBudget after a successful upsert) are re-fetched;
the dashboard aggregates and the budget card's monthly spending are fetched
only on mount and are never re-fetched after a mutation. -/
theorem mutationRefetch_wiring (m : Mutation) (d : Display) :
    refetchAfterSuccess m d =
      (affects m d && (d == .expenseListView || d == .budgetRowView)) := by
  cases m <;> cases d <;> rfl

/-- C10: the expense-list view holds at most 50 expenses (the 50 most recent
by date), the dashboard aggregates are computed over the unlimited fetch of
all expenses, and with more than 50 expenses the two can disagree. -/
theorem expenseList_limit_vs_dashboard_aggregates :
    (∀ db : List Expense, (fetchExpensesQuery db).length ≤ 50) ∧
    (∀ db : List Expense,
      totalExpenses (fetchDashboardRows db) = (db.map Expense.amount).sum) ∧
    (∃ db : List Expense, 50 < db.length ∧
      totalExpenses (fetchExpensesQuery db) ≠
        totalExpenses (fetchDashboardRows db)) := by
  refine ⟨?_, ?_, ?_⟩
  · intro db
    simp only [fetchExpensesQuery, List.length_take]
    omega
  · intro db
    rw [fetchDashboardRows, totalExpenses_eq_sum, sortByDateDesc]
    exact ((List.mergeSort_perm db _).map Expense.amount).sum_eq
  · refine ⟨List.replicate 51 ⟨1, ⟨2024, 1, 1⟩, none⟩, by simp, ?_⟩
    have hsort : sortByDateDesc (List.replicate 51 ⟨1, ⟨2024, 1, 1⟩, none⟩) =
        List.replicate 51 ⟨1, ⟨2024, 1, 1⟩, none⟩ := by
      have hp := List.mergeSort_perm
        (List.replicate 51 (⟨1, ⟨2024, 1, 1⟩, none⟩ : Expense))
        (fun a b => decide (dateOrd b.date ≤ dateOrd a.date))
      rw [sortByDateDesc, List.eq_replicate_iff]
      refine ⟨by simpa using hp.length_eq, fun b hb => ?_⟩
      exact List.eq_of_mem_replicate (hp.mem_iff.mp hb)
    rw [fetchExpensesQuery, fetchDashboardRows, hsort, List.take_replicate,
      totalExpenses_eq_sum, totalExpenses_eq_sum, List.map_replicate,
      List.map_replicate, List.sum_replicate, List.sum_replicate]
    norm_num

end ExpenseTracker
